import Mathlib

/-
Verification of the stone-texture generation engine (`StoneGeneratorEngine` in
`main.py`) against its natural-language specification.

Modelling conventions:
* `float32` values are embedded as rationals (`ℚ`); arithmetic is exact.
  Where IEEE produces NaN (division by zero), the total rational division
  yields the junk value 0; the relevant theorems note this explicitly.
* numpy 2-D arrays are embedded either as flat `List ℚ` (when only the
  per-element pipeline and global min/max matter) or as row lists
  `List (List ℚ)`; shapes and broadcasting are modelled separately by
  `Shape2`/`broadcastInto`, where a numpy broadcast error becomes `none`.
* External library primitives that the repository merely calls
  (`np.random.default_rng` draws, `PIL Image.resize`, `np.gradient`,
  `np.sqrt` inside `np.linalg.norm`) are abstracted as function
  parameters: every piece of arithmetic written in `main.py` itself is
  embedded concretely.
* `np.float32.astype(np.uint8)` is a C cast: truncation toward zero, then
  wraparound mod 256.  All values cast in this pipeline are non-negative,
  where truncation toward zero coincides with `Int.floor`.
-/

/-- Embeds `.astype(np.uint8)` for the non-negative floats this pipeline
produces: truncate toward zero (= floor on non-negatives), wrap mod 256. -/
def astypeU8 (q : ℚ) : ℕ := (Int.toNat ⌊q⌋) % 256

/-- Embeds `np.clip(v, 0.0, 1.0)` (line 81). -/
def clip01 (v : ℚ) : ℚ := min (max v 0) 1

/-- Minimum of a list of rationals, as `np.min` over a nonempty array.
The `[]` default 0 is never used by the pipeline (arrays are nonempty). -/
def listMin : List ℚ → ℚ
  | [] => 0
  | x :: xs => xs.foldl min x

/-- Maximum of a list of rationals, as `np.max` over a nonempty array. -/
def listMax : List ℚ → ℚ
  | [] => 0
  | x :: xs => xs.foldl max x

/-- Embeds line 77:
`structure = (structure - np.min(structure)) / (np.max(structure) - np.min(structure))`.
The division is written exactly as in the source, with no guard for
`max = min`; in `ℚ` a zero denominator gives 0 (IEEE: NaN). -/
def normalizeField (xs : List ℚ) : List ℚ :=
  xs.map (fun v => (v - listMin xs) / (listMax xs - listMin xs))

/-- Embeds lines 80-81: `structure = (structure - 0.5) * contrast_val + 0.5`
followed by `np.clip(structure, 0.0, 1.0)`. -/
def contrastClip (c : ℚ) (xs : List ℚ) : List ℚ :=
  xs.map (fun v => clip01 ((v - 1/2) * c + 1/2))

/-- The deterministic tail of `HeightFieldBuilder.build` (lines 77-81):
min-max normalization followed by the contrast step, applied to the
composed structure field. -/
def hfbPost (c : ℚ) (xs : List ℚ) : List ℚ := contrastClip c (normalizeField xs)

-- ## Shape model (numpy broadcasting, for the shape invariant)

/-- Shape of a 2-D numpy array: rows, then columns. -/
structure Shape2 where
  rows : ℕ
  cols : ℕ
deriving DecidableEq

/-- Embeds numpy in-place addition `a += b`: `b` must broadcast into the
fixed shape of `a` (each of `b`'s dimensions equals `a`'s or is 1),
otherwise numpy raises — modelled as `none`. -/
def broadcastInto (a b : Shape2) : Option Shape2 :=
  if (b.rows = a.rows ∨ b.rows = 1) ∧ (b.cols = a.cols ∨ b.cols = 1) then some a
  else none

/-- Shape of `np.array(img.resize((width, height)))` (lines 43-44): a PIL
size `(width, height)` is width columns by height rows, so the resulting
array has shape `(height, width)`. -/
def resizeShape (w h : ℕ) : Shape2 := ⟨h, w⟩

/-- Shape behaviour of `generate_noise_layer` (lines 27-52): the
accumulator is `np.zeros((width, height))` and each octave adds the
resized layer of shape `(height, width)` in place. -/
def noiseLayerShape (w h : ℕ) : ℕ → Option Shape2
  | 0 => some ⟨w, h⟩
  | n + 1 => (noiseLayerShape w h n).bind (fun s => broadcastInto s (resizeShape w h))

/-- Shape behaviour of `generate_maps` (lines 69-122): three noise layers
are combined elementwise into the structure map, whose shape every
derived raster then shares; `none` when any step raises. -/
def mapsShape (w h octaves : ℕ) : Option Shape2 :=
  (noiseLayerShape w h octaves).bind (fun s1 =>
    (noiseLayerShape w h 2).bind (fun s2 =>
      (noiseLayerShape w h 2).bind (fun s3 =>
        if s1 = s2 ∧ s2 = s3 then some s1 else none)))

-- ## Noise synthesizer (value model)

/-- Rows-of-columns value model of a 2-D float array. -/
abbrev Grid := List (List ℚ)

/-- Lattice dimension of one octave (lines 34-38):
`int(dim * freq) + 1`, then clamped down to `dim`.  Python `int()`
truncates toward zero, which on the non-negative frequencies used here is
`Int.floor`. -/
def latticeDim (dim : ℕ) (freq : ℚ) : ℕ :=
  if Int.toNat ⌊(dim : ℚ) * freq⌋ + 1 > dim then dim
  else Int.toNat ⌊(dim : ℚ) * freq⌋ + 1

/-- Lattice dimension formula as the specification words it: `round`, not
truncation, with both clamps explicit. -/
def specRoundLatticeDim (dim : ℕ) (freq : ℚ) : ℕ :=
  max (min (Int.toNat (round ((dim : ℚ) * freq)) + 1) dim) 1

/-- Pointwise map over a grid. -/
def gridMap (f : ℚ → ℚ) (g : Grid) : Grid := g.map (List.map f)

/-- Pointwise combination of two same-shaped grids. -/
def gridZip (f : ℚ → ℚ → ℚ) (a b : Grid) : Grid :=
  List.zipWith (List.zipWith f) a b

/-- Pointwise combination of three same-length rows. -/
def rowZip3 (f : ℚ → ℚ → ℚ → ℚ) : List ℚ → List ℚ → List ℚ → List ℚ
  | x :: xs, y :: ys, z :: zs => f x y z :: rowZip3 f xs ys zs
  | _, _, _ => []

/-- Pointwise combination of three same-shaped grids. -/
def gridZip3 (f : ℚ → ℚ → ℚ → ℚ) : Grid → Grid → Grid → Grid
  | a :: as, b :: bs, c :: cs => rowZip3 f a b c :: gridZip3 f as bs cs
  | _, _, _ => []

/-- Embeds `np.zeros((width, height))` (line 27). -/
def gridZeros (w h : ℕ) : Grid := List.replicate w (List.replicate h 0)

/-- The octave loop of `generate_noise_layer` (lines 33-50).  `draw i hn wn`
abstracts the i-th call `rng.random((h_noise, w_noise))` of the seeded
generator; `resize` abstracts PIL bilinear resizing to `(width, height)`.
Arguments after the octave counter: draw index, frequency, amplitude,
accumulator grid, accumulated total amplitude. -/
def octaveLoop (draw : ℕ → ℕ → ℕ → Grid) (resize : Grid → ℕ → ℕ → Grid)
    (w h : ℕ) (persistence lacunarity : ℚ) :
    ℕ → ℕ → ℚ → ℚ → Grid → ℚ → Grid × ℚ
  | 0, _, _, _, grid, maxAmp => (grid, maxAmp)
  | n + 1, o, freq, amp, grid, maxAmp =>
      octaveLoop draw resize w h persistence lacunarity n (o + 1)
        (freq * lacunarity) (amp * persistence)
        (gridZip (fun a b => a + b) grid
          (gridMap (fun v => v * amp)
            (resize (draw o (latticeDim h freq) (latticeDim w freq)) w h)))
        (maxAmp + amp)

/-- Embeds `generate_noise_layer` (lines 21-52): initial frequency
`scale / min(width, height)`, amplitude 1, zero accumulator, and the final
division `grid / max_amp`.  `draw seed i hn wn` abstracts the i-th draw of
`np.random.default_rng(seed)`. -/
def generate_noise_layer (draw : ℤ → ℕ → ℕ → ℕ → Grid)
    (resize : Grid → ℕ → ℕ → Grid) (w h : ℕ) (scale : ℚ) (seed : ℤ)
    (persistence lacunarity : ℚ) (octaves : ℕ) : Grid :=
  let res := octaveLoop (draw seed) resize w h persistence lacunarity octaves 0
    (scale / (min w h : ℕ)) 1 (gridZeros w h) 0
  gridMap (fun v => v / res.2) res.1

-- ## Height-field builder and material-map deriver (value model)

/-- Generation parameters, as read from the `params` dict (lines 58-65). -/
structure GenParams where
  width : ℕ
  height : ℕ
  seed : ℤ
  scale : ℚ
  detail_octaves : ℕ
  roughness : ℚ
  contrast : ℚ
  depth_strength : ℚ
  color1 : ℕ × ℕ × ℕ
  color2 : ℕ × ℕ × ℕ
deriving DecidableEq

/-- Flatten a grid to the list of its entries (row-major). -/
def gridJoin (g : Grid) : List ℚ := g.foldr (fun r acc => r ++ acc) []

/-- Embeds `np.min` over a 2-D array. -/
def gridMin (g : Grid) : ℚ := listMin (gridJoin g)

/-- Embeds `np.max` over a 2-D array. -/
def gridMax (g : Grid) : ℚ := listMax (gridJoin g)

/-- Line 77 at grid level: unconditional global min-max normalization. -/
def gridNormalize (g : Grid) : Grid :=
  gridMap (fun v => (v - gridMin g) / (gridMax g - gridMin g)) g

/-- Lines 80-81 at grid level: contrast then clip to `[0, 1]`. -/
def gridContrastClip (c : ℚ) (g : Grid) : Grid :=
  gridMap (fun v => clip01 ((v - 1/2) * c + 1/2)) g

/-- Lines 69-81: base noise plus `0.08` times each warp channel, seeded
`seed`, `seed + 1`, `seed + 2`, then normalization and contrast. -/
def buildStructure (draw : ℤ → ℕ → ℕ → ℕ → Grid)
    (resize : Grid → ℕ → ℕ → Grid) (p : GenParams) : Grid :=
  gridContrastClip p.contrast (gridNormalize
    (gridZip3 (fun b x y => b + (8/100) * x + (8/100) * y)
      (generate_noise_layer draw resize p.width p.height p.scale p.seed
        (1/2) 2 p.detail_octaves)
      (generate_noise_layer draw resize p.width p.height (p.scale * 2)
        (p.seed + 1) (1/2) 2 2)
      (generate_noise_layer draw resize p.width p.height (p.scale * 2)
        (p.seed + 2) (1/2) 2 2)))

/-- One albedo channel (line 89): `s * color2 + (1 - s) * color1`, cast to
`uint8`. -/
def albedoChannel (v : ℚ) (c1 c2 : ℕ) : ℕ :=
  astypeU8 (v * (c2 : ℚ) + (1 - v) * (c1 : ℚ))

/-- One albedo pixel: the channel blend applied to R, G and B. -/
def albedoPixel (c1 c2 : ℕ × ℕ × ℕ) (v : ℚ) : ℕ × ℕ × ℕ :=
  (albedoChannel v c1.1 c2.1, albedoChannel v c1.2.1 c2.2.1,
   albedoChannel v c1.2.2 c2.2.2)

/-- Lines 84-89: the albedo raster. -/
def deriveAlbedo (c1 c2 : ℕ × ℕ × ℕ) (s : Grid) : List (List (ℕ × ℕ × ℕ)) :=
  s.map (List.map (albedoPixel c1 c2))

/-- Squared Euclidean norm of the pre-normalization normal vector
`(-gx, gy, 1)` built at line 98; line 100 takes its square root. -/
def normalDenomSq (gx gy : ℚ) : ℚ := (-gx) ^ 2 + gy ^ 2 + 1 ^ 2

/-- One normal-map pixel (lines 98-103): normalize `(-gx, gy, 1)` by its
Euclidean norm (`qsqrt` abstracts the float square root), then remap each
component via `(c + 1) * 0.5 * 255` and cast to `uint8`. -/
def normalPixel (qsqrt : ℚ → ℚ) (gx gy : ℚ) : ℕ × ℕ × ℕ :=
  (astypeU8 ((-gx / qsqrt (normalDenomSq gx gy) + 1) * (1/2) * 255),
   astypeU8 ((gy / qsqrt (normalDenomSq gx gy) + 1) * (1/2) * 255),
   astypeU8 ((1 / qsqrt (normalDenomSq gx gy) + 1) * (1/2) * 255))

/-- Lines 93-103: the normal-map raster.  `grad` abstracts `np.gradient`,
returning the axis-0 (y) derivative first, exactly as
`gradient_y, gradient_x = np.gradient(structure)`; both components are
scaled by `depth_strength * 10` before the vectors are built. -/
def deriveNormal (grad : Grid → Grid × Grid) (qsqrt : ℚ → ℚ) (depth : ℚ)
    (s : Grid) : List (List (ℕ × ℕ × ℕ)) :=
  List.zipWith (List.zipWith (normalPixel qsqrt))
    (gridMap (fun v => v * (depth * 10)) (grad s).2)
    (gridMap (fun v => v * (depth * 10)) (grad s).1)

/-- One roughness pixel (lines 106-111): `(1 - s) * 255`, optionally
rescaled around 127.5 when the factor is not 1, clipped to `[0, 255]`,
cast to `uint8`. -/
def roughPixel (rf v : ℚ) : ℕ :=
  astypeU8 (min (max (if rf = 1 then (1 - v) * 255
    else ((1 - v) * 255 - 255/2) * rf + 255/2) 0) 255)

/-- Lines 105-111: the roughness raster. -/
def deriveRough (rf : ℚ) (s : Grid) : List (List ℕ) :=
  s.map (List.map (roughPixel rf))

/-- One height-map pixel (line 115): `structure * 255` cast to `uint8`
(truncation, not rounding). -/
def heightByte (v : ℚ) : ℕ := astypeU8 (v * 255)

/-- Line 115: the height raster. -/
def deriveHeight (s : Grid) : List (List ℕ) :=
  s.map (List.map heightByte)

/-- The four rasters returned by `generate_maps` (lines 117-122). -/
structure MaterialMapSet where
  albedo : List (List (ℕ × ℕ × ℕ))
  normal : List (List (ℕ × ℕ × ℕ))
  roughness : List (List ℕ)
  heightMap : List (List ℕ)
deriving DecidableEq

/-- Embeds `generate_maps` (lines 54-122), with the external numpy/PIL
primitives (`draw`, `resize`, `grad`, `qsqrt`) abstracted as deterministic
functions.  Every derived raster is a pure function of the structure map
and the parameters. -/
def generateMaps (draw : ℤ → ℕ → ℕ → ℕ → Grid)
    (resize : Grid → ℕ → ℕ → Grid) (grad : Grid → Grid × Grid)
    (qsqrt : ℚ → ℚ) (p : GenParams) : MaterialMapSet :=
  ⟨deriveAlbedo p.color1 p.color2 (buildStructure draw resize p),
   deriveNormal grad qsqrt p.depth_strength (buildStructure draw resize p),
   deriveRough p.roughness (buildStructure draw resize p),
   deriveHeight (buildStructure draw resize p)⟩

-- ## Orchestration trace (progress reporting)

/-- The progress checkpoints issued inside `generate_maps`
(lines 67, 71, 79, 83, 91, 105, 113), in source order. -/
def engineTrace : List (ℕ × String) :=
  [(10, "Generating Height Map (Base)..."),
   (30, "Applying Domain Warping..."),
   (40, "Refining Details..."),
   (50, "Generating Albedo..."),
   (70, "Generating Normal Map (3D Calculation)..."),
   (85, "Generating Roughness Map..."),
   (95, "Finalizing Output...")]

/-- The full callback trace of a successful `App.run_process` run
(lines 254-263): the engine trace, then — only on the export path with a
directory chosen — `save_maps`'s `(90, ...)` report (line 299), then
`(100, "Done")` (line 263). -/
def runTrace (preview pathChosen : Bool) : List (ℕ × String) :=
  engineTrace ++
    (if preview then [] else
      if pathChosen then [(90, "Writing files to disk...")] else []) ++
    [(100, "Done")]

/-- Boolean test that a percentage sequence is non-decreasing. -/
def nonDecB : List ℕ → Bool
  | [] => true
  | [_] => true
  | a :: b :: t => a ≤ b && nonDecB (b :: t)

/-- The concrete parameter set of the specification's scenario (section 8):
64 x 64, seed 42, scale 5, 3 octaves, contrast 1, depth 5, roughness 1,
colors (43,43,43) and (138,138,138). -/
def pDemo : GenParams :=
  ⟨64, 64, 42, 5, 3, 1, 1, 5, (43, 43, 43), (138, 138, 138)⟩

-- ## Helper lemmas about listMin / listMax

theorem foldlMin_le_init (l : List ℚ) : ∀ a : ℚ, l.foldl min a ≤ a := by
  induction l with
  | nil => intro a; exact le_refl a
  | cons x t ih =>
      intro a
      calc (x :: t).foldl min a = t.foldl min (min a x) := rfl
        _ ≤ min a x := ih (min a x)
        _ ≤ a := min_le_left a x

theorem foldlMin_le_mem (l : List ℚ) : ∀ (a b : ℚ), b ∈ l → l.foldl min a ≤ b := by
  induction l with
  | nil => intro a b hb; cases hb
  | cons x t ih =>
      intro a b hb
      rcases List.mem_cons.mp hb with h | h
      · subst h
        calc (b :: t).foldl min a = t.foldl min (min a b) := rfl
          _ ≤ min a b := foldlMin_le_init t (min a b)
          _ ≤ b := min_le_right a b
      · exact ih (min a x) b h

theorem le_foldlMin (l : List ℚ) : ∀ (a c : ℚ), c ≤ a → (∀ b ∈ l, c ≤ b) →
    c ≤ l.foldl min a := by
  induction l with
  | nil => intro a c hca _; exact hca
  | cons x t ih =>
      intro a c hca hall
      exact ih (min a x) c (le_min hca (hall x (List.mem_cons_self x t)))
        (fun b hb => hall b (List.mem_cons_of_mem x hb))

theorem foldlMin_mem (l : List ℚ) : ∀ a : ℚ, l.foldl min a = a ∨ l.foldl min a ∈ l := by
  induction l with
  | nil => intro a; exact Or.inl rfl
  | cons x t ih =>
      intro a
      rcases ih (min a x) with h | h
      · rcases le_total a x with hax | hxa
        · left
          calc (x :: t).foldl min a = t.foldl min (min a x) := rfl
            _ = min a x := h
            _ = a := min_eq_left hax
        · right
          apply List.mem_cons.mpr
          left
          calc (x :: t).foldl min a = t.foldl min (min a x) := rfl
            _ = min a x := h
            _ = x := min_eq_right hxa
      · exact Or.inr (List.mem_cons_of_mem x h)

theorem listMin_le_of_mem {xs : List ℚ} {a : ℚ} (h : a ∈ xs) : listMin xs ≤ a := by
  cases xs with
  | nil => cases h
  | cons x t =>
      rcases List.mem_cons.mp h with h' | h'
      · subst h'; exact foldlMin_le_init t a
      · exact foldlMin_le_mem t x a h'

theorem le_listMin {xs : List ℚ} {c : ℚ} (hne : xs ≠ []) (h : ∀ a ∈ xs, c ≤ a) :
    c ≤ listMin xs := by
  cases xs with
  | nil => exact absurd rfl hne
  | cons x t =>
      exact le_foldlMin t x c (h x (List.mem_cons_self x t))
        (fun b hb => h b (List.mem_cons_of_mem x hb))

theorem listMin_mem {xs : List ℚ} (hne : xs ≠ []) : listMin xs ∈ xs := by
  cases xs with
  | nil => exact absurd rfl hne
  | cons x t =>
      rcases foldlMin_mem t x with h | h
      · rw [listMin, h]; exact List.mem_cons_self x t
      · exact List.mem_cons_of_mem x h

theorem foldlMax_init_le (l : List ℚ) : ∀ a : ℚ, a ≤ l.foldl max a := by
  induction l with
  | nil => intro a; exact le_refl a
  | cons x t ih =>
      intro a
      calc a ≤ max a x := le_max_left a x
        _ ≤ t.foldl max (max a x) := ih (max a x)
        _ = (x :: t).foldl max a := rfl

theorem mem_le_foldlMax (l : List ℚ) : ∀ (a b : ℚ), b ∈ l → b ≤ l.foldl max a := by
  induction l with
  | nil => intro a b hb; cases hb
  | cons x t ih =>
      intro a b hb
      rcases List.mem_cons.mp hb with h | h
      · subst h
        calc b ≤ max a b := le_max_right a b
          _ ≤ t.foldl max (max a b) := foldlMax_init_le t (max a b)
          _ = (b :: t).foldl max a := rfl
      · exact ih (max a x) b h

theorem foldlMax_le (l : List ℚ) : ∀ (a c : ℚ), a ≤ c → (∀ b ∈ l, b ≤ c) →
    l.foldl max a ≤ c := by
  induction l with
  | nil => intro a c hca _; exact hca
  | cons x t ih =>
      intro a c hca hall
      exact ih (max a x) c (max_le hca (hall x (List.mem_cons_self x t)))
        (fun b hb => hall b (List.mem_cons_of_mem x hb))

theorem foldlMax_mem (l : List ℚ) : ∀ a : ℚ, l.foldl max a = a ∨ l.foldl max a ∈ l := by
  induction l with
  | nil => intro a; exact Or.inl rfl
  | cons x t ih =>
      intro a
      rcases ih (max a x) with h | h
      · rcases le_total x a with hax | hxa
        · left
          calc (x :: t).foldl max a = t.foldl max (max a x) := rfl
            _ = max a x := h
            _ = a := max_eq_left hax
        · right
          apply List.mem_cons.mpr
          left
          calc (x :: t).foldl max a = t.foldl max (max a x) := rfl
            _ = max a x := h
            _ = x := max_eq_right hxa
      · exact Or.inr (List.mem_cons_of_mem x h)

theorem mem_le_listMax {xs : List ℚ} {a : ℚ} (h : a ∈ xs) : a ≤ listMax xs := by
  cases xs with
  | nil => cases h
  | cons x t =>
      rcases List.mem_cons.mp h with h' | h'
      · subst h'; exact foldlMax_init_le t a
      · exact mem_le_foldlMax t x a h'

theorem listMax_le {xs : List ℚ} {c : ℚ} (hne : xs ≠ []) (h : ∀ a ∈ xs, a ≤ c) :
    listMax xs ≤ c := by
  cases xs with
  | nil => exact absurd rfl hne
  | cons x t =>
      exact foldlMax_le t x c (h x (List.mem_cons_self x t))
        (fun b hb => h b (List.mem_cons_of_mem x hb))

theorem listMax_mem {xs : List ℚ} (hne : xs ≠ []) : listMax xs ∈ xs := by
  cases xs with
  | nil => exact absurd rfl hne
  | cons x t =>
      rcases foldlMax_mem t x with h | h
      · rw [listMax, h]; exact List.mem_cons_self x t
      · exact List.mem_cons_of_mem x h

-- ## Further helper lemmas

theorem clip01_nonneg (v : ℚ) : 0 ≤ clip01 v :=
  le_min (le_max_right v 0) zero_le_one

theorem clip01_le_one (v : ℚ) : clip01 v ≤ 1 := min_le_right _ _

theorem hfbPost_ne_nil {xs : List ℚ} (hne : xs ≠ []) (c : ℚ) :
    hfbPost c xs ≠ [] := by
  intro h
  apply hne
  have := List.map_eq_nil_iff.mp (List.map_eq_nil_iff.mp h)
  exact this

theorem exampleMinMax01 : listMin [(0:ℚ), 1] < listMax [(0:ℚ), 1] := by
  norm_num [listMin, listMax]

-- ## Claim C1

/-- C1 (corrected): the specification asserts a degenerate flat field is
replaced by a constant 0.5 field with no division by zero.  The code has
no such branch: line 77 divides by `max - min` unconditionally, so a flat
field divides by zero (IEEE: a NaN field; in this total-division model:
a constant 0 field) — never the claimed constant 0.5 field. -/
theorem c1_flat_field_not_half (xs : List ℚ) (h : listMin xs = listMax xs) :
    normalizeField xs = xs.map (fun _ => 0) := by
  simp only [normalizeField, h, sub_self, div_zero]

/-- Witness for C1's amended statement at the one-pixel flat field
`[3/10]`. -/
theorem c1_witness :
    normalizeField [(3:ℚ)/10] = [(3:ℚ)/10].map (fun _ => 0) :=
  c1_flat_field_not_half [(3:ℚ)/10] rfl

/-- Counterexample to C1 as stated: the flat field `[3/10]` has zero
dynamic range, yet normalization does not produce the constant 0.5
field — the unguarded division by zero yields 0 in this model (NaN in
IEEE floats). -/
theorem c1_counterexample :
    listMin [(3:ℚ)/10] = listMax [(3:ℚ)/10] ∧
    normalizeField [(3:ℚ)/10] ≠ [(1:ℚ)/2] := by
  refine ⟨rfl, ?_⟩
  norm_num [normalizeField, listMin, listMax]

-- ## Claim C2

/-- C2 (corrected): after normalization (line 77) and the contrast step
(lines 80-81), the structure map attains minimum exactly 0 and maximum
exactly 1 — provided the field is not flat AND the contrast factor is at
least 1.  The claim's hypothesis `contrast ≥ 0` is too weak: for
contrast below 1 (reachable from the UI slider, range 0.5-3.0) the
bounds fail, see the counterexample. -/
theorem c2_bounds_after_build (xs : List ℚ) (c : ℚ) (hne : xs ≠ [])
    (hlt : listMin xs < listMax xs) (hc : 1 ≤ c) :
    listMin (hfbPost c xs) = 0 ∧ listMax (hfbPost c xs) = 1 := by
  have hD : listMax xs - listMin xs ≠ 0 := sub_ne_zero.mpr hlt.ne'
  have hne' : hfbPost c xs ≠ [] := hfbPost_ne_nil hne c
  have hmem : ∀ a ∈ hfbPost c xs, 0 ≤ a ∧ a ≤ 1 := by
    intro a ha
    unfold hfbPost contrastClip at ha
    rcases List.mem_map.mp ha with ⟨u, _, rfl⟩
    exact ⟨clip01_nonneg _, clip01_le_one _⟩
  have h0mem : (0:ℚ) ∈ hfbPost c xs := by
    have hm : listMin xs ∈ xs := listMin_mem hne
    have hval : clip01 (((listMin xs - listMin xs) /
        (listMax xs - listMin xs) - 1/2) * c + 1/2) = 0 := by
      rw [sub_self, zero_div]
      have hle : ((0:ℚ) - 1/2) * c + 1/2 ≤ 0 := by nlinarith
      unfold clip01
      rw [max_eq_right hle, min_eq_left zero_le_one]
    rw [← hval]
    unfold hfbPost contrastClip normalizeField
    rw [List.map_map]
    exact List.mem_map_of_mem _ hm
  have h1mem : (1:ℚ) ∈ hfbPost c xs := by
    have hM : listMax xs ∈ xs := listMax_mem hne
    have hval : clip01 (((listMax xs - listMin xs) /
        (listMax xs - listMin xs) - 1/2) * c + 1/2) = 1 := by
      rw [div_self hD]
      have hge : (1:ℚ) ≤ ((1:ℚ) - 1/2) * c + 1/2 := by nlinarith
      have hge0 : (0:ℚ) ≤ ((1:ℚ) - 1/2) * c + 1/2 := le_trans zero_le_one hge
      unfold clip01
      rw [max_eq_left hge0, min_eq_right hge]
    rw [← hval]
    unfold hfbPost contrastClip normalizeField
    rw [List.map_map]
    exact List.mem_map_of_mem _ hM
  constructor
  · exact le_antisymm (listMin_le_of_mem h0mem)
      (le_listMin hne' (fun a ha => (hmem a ha).1))
  · exact le_antisymm (listMax_le hne' (fun a ha => (hmem a ha).2))
      (mem_le_listMax h1mem)

/-- Witness for C2's amended statement at the field `[0, 1]` with
contrast 1. -/
theorem c2_witness :
    listMin (hfbPost 1 [(0:ℚ), 1]) = 0 ∧ listMax (hfbPost 1 [(0:ℚ), 1]) = 1 :=
  c2_bounds_after_build [(0:ℚ), 1] 1 (by simp) exampleMinMax01 (le_refl 1)

/-- Counterexample to C2 as stated: with contrast 1/2 (which is >= 0 and
inside the UI slider range) the non-degenerate field `[0, 1]` builds to
`[1/4, 3/4]`, whose minimum is not 0 and maximum is not 1. -/
theorem c2_counterexample :
    listMin [(0:ℚ), 1] < listMax [(0:ℚ), 1] ∧ (0:ℚ) ≤ 1/2 ∧
    hfbPost (1/2) [(0:ℚ), 1] = [1/4, 3/4] ∧
    ¬(listMin (hfbPost (1/2) [(0:ℚ), 1]) = 0 ∧
      listMax (hfbPost (1/2) [(0:ℚ), 1]) = 1) := by
  have hval : hfbPost (1/2) [(0:ℚ), 1] = [1/4, 3/4] := by
    norm_num [hfbPost, contrastClip, normalizeField, listMin, listMax, clip01]
  refine ⟨exampleMinMax01, by norm_num, hval, ?_⟩
  rw [hval]
  intro hcontra
  have := hcontra.1
  norm_num [listMin] at this

-- ## Claim C3

/-- C3 (corrected): the claim promises four width x height rasters for
every valid width and height, "not necessarily equal".  The code only
delivers this for square resolutions: `generate_noise_layer` accumulates
into `np.zeros((width, height))` but each resized octave layer has shape
`(height, width)`, so any non-square request raises a numpy broadcast
error and returns nothing.  For width = height every output raster does
have exactly width * height pixels. -/
theorem c3_square_shapes (w oc : ℕ) :
    mapsShape w w oc = some ⟨w, w⟩ ∧
    ∀ s, mapsShape w w oc = some s → s.rows * s.cols = w * w := by
  have hlayer : ∀ n, noiseLayerShape w w n = some ⟨w, w⟩ := by
    intro n
    induction n with
    | zero => rfl
    | succ k ih =>
        simp only [noiseLayerShape, ih, Option.bind_some]
        unfold broadcastInto resizeShape
        simp
  have hmain : mapsShape w w oc = some ⟨w, w⟩ := by
    simp [mapsShape, hlayer]
  refine ⟨hmain, fun s hs => ?_⟩
  rw [hmain] at hs
  cases hs
  rfl

/-- Counterexample to C3 as stated: at the valid non-square resolution
width 2, height 3 (with one octave) the pipeline raises instead of
returning rasters — the shape model yields `none`. -/
theorem c3_counterexample : mapsShape 2 3 1 = none := by decide

-- ## Claim C4

theorem octaveLoop_congr (d1 d2 : ℕ → ℕ → ℕ → Grid)
    (resize : Grid → ℕ → ℕ → Grid) (w h : ℕ) (pe la : ℚ)
    (hd : ∀ i a b, d1 i a b = d2 i a b) :
    ∀ (n o : ℕ) (freq amp : ℚ) (grid : Grid) (maxAmp : ℚ),
      octaveLoop d1 resize w h pe la n o freq amp grid maxAmp =
      octaveLoop d2 resize w h pe la n o freq amp grid maxAmp := by
  intro n
  induction n with
  | zero => intro o freq amp grid maxAmp; rfl
  | succ k ih =>
      intro o freq amp grid maxAmp
      simp only [octaveLoop, hd]
      exact ih _ _ _ _ _

theorem noise_layer_congr (d1 d2 : ℤ → ℕ → ℕ → ℕ → Grid)
    (resize : Grid → ℕ → ℕ → Grid) (w h : ℕ) (scale : ℚ) (seed : ℤ)
    (pe la : ℚ) (oc : ℕ) (hd : ∀ i a b, d1 seed i a b = d2 seed i a b) :
    generate_noise_layer d1 resize w h scale seed pe la oc =
    generate_noise_layer d2 resize w h scale seed pe la oc := by
  unfold generate_noise_layer
  rw [octaveLoop_congr (d1 seed) (d2 seed) resize w h pe la hd]

/-- C4 (confirmed): `generate_maps` is a pure function of the parameters
and of the pseudo-random streams at seeds `seed`, `seed + 1`, `seed + 2`
(base, warp-X, warp-Y, lines 69-73): two runs whose streams agree at
exactly those three seeds produce identical `MaterialMapSet`s, and in
particular two runs of the same implementation (same streams) are
byte-identical. -/
theorem c4_deterministic_maps (d1 d2 : ℤ → ℕ → ℕ → ℕ → Grid)
    (resize : Grid → ℕ → ℕ → Grid) (grad : Grid → Grid × Grid)
    (qsqrt : ℚ → ℚ) (p : GenParams)
    (h0 : ∀ i a b, d1 p.seed i a b = d2 p.seed i a b)
    (h1 : ∀ i a b, d1 (p.seed + 1) i a b = d2 (p.seed + 1) i a b)
    (h2 : ∀ i a b, d1 (p.seed + 2) i a b = d2 (p.seed + 2) i a b) :
    generateMaps d1 resize grad qsqrt p = generateMaps d2 resize grad qsqrt p ∧
    generateMaps d1 resize grad qsqrt p = generateMaps d1 resize grad qsqrt p := by
  have hs : buildStructure d1 resize p = buildStructure d2 resize p := by
    unfold buildStructure
    rw [noise_layer_congr d1 d2 resize p.width p.height p.scale p.seed
        (1/2) 2 p.detail_octaves h0,
      noise_layer_congr d1 d2 resize p.width p.height (p.scale * 2)
        (p.seed + 1) (1/2) 2 2 h1,
      noise_layer_congr d1 d2 resize p.width p.height (p.scale * 2)
        (p.seed + 2) (1/2) 2 2 h2]
  refine ⟨?_, rfl⟩
  unfold generateMaps
  rw [hs]

/-- Witness for C4 at the scenario parameters with concrete oracle
functions. -/
theorem c4_witness :
    generateMaps (fun _ _ _ _ => [[0]]) (fun g _ _ => g) (fun g => (g, g))
        (fun q => q) pDemo =
      generateMaps (fun _ _ _ _ => [[0]]) (fun g _ _ => g) (fun g => (g, g))
        (fun q => q) pDemo ∧
    generateMaps (fun _ _ _ _ => [[0]]) (fun g _ _ => g) (fun g => (g, g))
        (fun q => q) pDemo =
      generateMaps (fun _ _ _ _ => [[0]]) (fun g _ _ => g) (fun g => (g, g))
        (fun q => q) pDemo :=
  c4_deterministic_maps (fun _ _ _ _ => [[0]]) (fun _ _ _ _ => [[0]])
    (fun g _ _ => g) (fun g => (g, g)) (fun q => q) pDemo
    (fun _ _ _ => rfl) (fun _ _ _ => rfl) (fun _ _ _ => rfl)

-- ## Claim C5

/-- C5 (corrected): the lattice dimensions of each octave are computed
with Python `int()` — truncation — not with `round` as the claim states:
`int(dim * freq) + 1`, clamped above by `dim`; the result is always at
least 1 without any explicit lower clamp.  The `freq` recurrence itself
(start at `scale / min(width, height)`, multiply by the lacunarity each
octave) matches the claim. -/
theorem c5_lattice_dims (dim : ℕ) (freq : ℚ) (h1 : 1 ≤ dim) (_h0 : 0 ≤ freq) :
    latticeDim dim freq = min (Int.toNat ⌊(dim : ℚ) * freq⌋ + 1) dim ∧
    1 ≤ latticeDim dim freq ∧ latticeDim dim freq ≤ dim := by
  unfold latticeDim
  split
  · next hgt => refine ⟨?_, h1, le_refl dim⟩; omega
  · next hle => refine ⟨?_, ?_, ?_⟩ <;> omega

theorem freqDemo_nonneg : (0:ℚ) ≤ 8/25 := by norm_num

/-- Witness for C5's amended statement at dimension 5, frequency 8/25. -/
theorem c5_witness :
    latticeDim 5 (8/25) = min (Int.toNat ⌊(5 : ℚ) * (8/25)⌋ + 1) 5 ∧
    1 ≤ latticeDim 5 (8/25) ∧ latticeDim 5 (8/25) ≤ 5 :=
  c5_lattice_dims 5 (8/25) (by decide) freqDemo_nonneg

/-- Counterexample to C5 as stated: at dimension 5 and frequency 8/25
(e.g. width = height = 5, scale = 8/5, octave 0) the code computes
`int(5 * 8/25) + 1 = 2`, while the claimed `round(5 * 8/25) + 1 = 3`. -/
theorem c5_counterexample :
    latticeDim 5 (8/25) = 2 ∧ specRoundLatticeDim 5 (8/25) = 3 ∧
    latticeDim 5 (8/25) ≠ specRoundLatticeDim 5 (8/25) := by
  have h1 : latticeDim 5 (8/25) = 2 := by
    norm_num [latticeDim]
  have h2 : specRoundLatticeDim 5 (8/25) = 3 := by
    norm_num [specRoundLatticeDim, round_eq]
    decide
  exact ⟨h1, h2, by rw [h1, h2]; decide⟩

-- ## Claim C6

theorem normalDenomSqDemo : ((1:ℝ)) ^ 2 = ((normalDenomSq 0 0 : ℚ) : ℝ) := by
  norm_num [normalDenomSq]

theorem normalMagSqDemo :
    ((1:ℝ)) ^ 2 =
      ((-(((0:ℚ)):ℝ)) / 1) ^ 2 + ((((0:ℚ)):ℝ) / 1) ^ 2 + ((1:ℝ) / 1) ^ 2 := by
  norm_num

/-- C6 (confirmed): the normal-map denominator is the Euclidean norm of
`(-gx, gy, 1)` (lines 98-101), whose square is `gx^2 + gy^2 + 1 >= 1`, so
the (non-negative) denominator is at least 1 and the division never
divides by zero; the normalized vector has squared magnitude exactly 1,
hence any non-negative magnitude value is within 1e-3 of 1 before the
8-bit remapping.  `d` stands for the real square root computed by
`np.linalg.norm`; `m` for the magnitude of the normalized vector. -/
theorem c6_unit_normals (gx gy : ℚ) (d m : ℝ)
    (hd2 : d ^ 2 = ((normalDenomSq gx gy : ℚ) : ℝ)) (hd0 : 0 ≤ d)
    (hm0 : 0 ≤ m)
    (hm : m ^ 2 = ((-((gx:ℚ):ℝ)) / d) ^ 2 + (((gy:ℚ):ℝ) / d) ^ 2 + ((1:ℝ) / d) ^ 2) :
    1 ≤ d ∧
    ((-((gx:ℚ):ℝ)) / d) ^ 2 + (((gy:ℚ):ℝ) / d) ^ 2 + ((1:ℝ) / d) ^ 2 = 1 ∧
    |m - 1| ≤ 1 / 1000 := by
  have hd2' : d ^ 2 = ((gx:ℚ):ℝ) ^ 2 + ((gy:ℚ):ℝ) ^ 2 + 1 := by
    rw [hd2]
    push_cast [normalDenomSq]
    ring
  have h1d : 1 ≤ d := by
    nlinarith [sq_nonneg ((gx:ℚ):ℝ), sq_nonneg ((gy:ℚ):ℝ), sq_nonneg (d - 1),
      sq_nonneg (d + 1)]
  have hdne : d ≠ 0 := by
    intro h
    rw [h] at h1d
    exact absurd h1d (by norm_num)
  have hsum : ((-((gx:ℚ):ℝ)) / d) ^ 2 + (((gy:ℚ):ℝ) / d) ^ 2 + ((1:ℝ) / d) ^ 2 = 1 := by
    field_simp
    linarith [hd2']
  refine ⟨h1d, hsum, ?_⟩
  rw [hsum] at hm
  have hle : m ≤ 1 := by nlinarith [sq_nonneg (m - 1)]
  have hge : 1 ≤ m := by nlinarith [mul_le_mul_of_nonneg_left hle hm0]
  have hm1 : m = 1 := le_antisymm hle hge
  rw [hm1]
  norm_num

/-- Witness for C6 at a flat pixel: both gradients 0, denominator 1,
magnitude 1. -/
theorem c6_witness :
    1 ≤ (1:ℝ) ∧
    ((-(((0:ℚ)):ℝ)) / 1) ^ 2 + ((((0:ℚ)):ℝ) / 1) ^ 2 + ((1:ℝ) / 1) ^ 2 = 1 ∧
    |(1:ℝ) - 1| ≤ 1 / 1000 :=
  c6_unit_normals 0 0 1 1 normalDenomSqDemo zero_le_one zero_le_one
    normalMagSqDemo

-- ## Claim C7

/-- C7 (confirmed): the albedo blend of line 89,
`s * color2 + (1 - s) * color1`, equals the claimed
`color1 * (1 - S) + color2 * S` per channel, and its 8-bit result is
exactly `color1` at `S = 0` and exactly `color2` at `S = 1` for any
8-bit channel values. -/
theorem c7_albedo_endpoints (s : ℚ) (c1 c2 : ℕ) (h1 : c1 ≤ 255)
    (h2 : c2 ≤ 255) :
    s * (c2:ℚ) + (1 - s) * (c1:ℚ) = (c1:ℚ) * (1 - s) + (c2:ℚ) * s ∧
    albedoChannel 0 c1 c2 = c1 ∧ albedoChannel 1 c1 c2 = c2 := by
  refine ⟨by ring, ?_, ?_⟩
  · unfold albedoChannel astypeU8
    rw [show ((0:ℚ) * (c2:ℚ) + (1 - 0) * (c1:ℚ)) = (c1:ℚ) by ring]
    rw [Int.floor_natCast]
    simp only [Int.toNat_natCast]
    omega
  · unfold albedoChannel astypeU8
    rw [show ((1:ℚ) * (c2:ℚ) + (1 - 1) * (c1:ℚ)) = (c2:ℚ) by ring]
    rw [Int.floor_natCast]
    simp only [Int.toNat_natCast]
    omega

/-- Witness for C7 at the scenario colors 43 and 138, with S = 1/2. -/
theorem c7_witness :
    (1:ℚ)/2 * (138:ℕ) + (1 - 1/2) * (43:ℕ) =
      ((43:ℕ):ℚ) * (1 - 1/2) + ((138:ℕ):ℚ) * (1/2) ∧
    albedoChannel 0 43 138 = 43 ∧ albedoChannel 1 43 138 = 138 :=
  c7_albedo_endpoints (1/2) 43 138 (by decide) (by decide)

-- ## Claim C8

/-- C8 (corrected): on a successful preview run the callback trace is
exactly the checkpoints 10, 30, 40, 50, 70, 85, 95, 100, in
non-decreasing order, each with a nonempty human-readable label, ending
with `(100, "Done")`.  The claim fails for successful export runs, where
`save_maps` reports 90 after the engine's 95 — see the counterexample. -/
theorem c8_preview_progress (pc : Bool) :
    List.map Prod.fst (runTrace true pc) = [10, 30, 40, 50, 70, 85, 95, 100] ∧
    nonDecB (List.map Prod.fst (runTrace true pc)) = true ∧
    (runTrace true pc).getLast? = some (100, "Done") ∧
    ∀ e ∈ runTrace true pc, e.2 ≠ "" := by
  cases pc <;> exact ⟨rfl, rfl, rfl, by decide⟩

/-- Counterexample to C8 as stated: the successful export run (a save
directory was chosen) reports 90 between 95 and 100, so its percentages
are neither non-decreasing nor exactly the claimed checkpoint list. -/
theorem c8_counterexample :
    nonDecB (List.map Prod.fst (runTrace false true)) = false ∧
    List.map Prod.fst (runTrace false true) ≠
      [10, 30, 40, 50, 70, 85, 95, 100] := by
  exact ⟨rfl, by decide⟩

-- ## Claim C9

theorem halfNonneg : (0:ℚ) ≤ 1/2 := by norm_num

theorem halfLeOne : (1:ℚ)/2 ≤ 1 := by norm_num

/-- C9 (corrected): line 115 converts the structure map with
`astype(np.uint8)`, which truncates: the height byte is
`floor(S * 255)`, not `S * 255` rounded to the nearest integer as the
claim states (see the counterexample at S = 1/2); the value always fits
in 8 bits for S in [0, 1]. -/
theorem c9_height_truncates (s : ℚ) (h0 : 0 ≤ s) (h1 : s ≤ 1) :
    heightByte s = Int.toNat ⌊s * 255⌋ ∧ heightByte s ≤ 255 := by
  have hnn : (0:ℚ) ≤ s * 255 := by positivity
  have hub : s * 255 ≤ 255 := by nlinarith
  have hf0 : 0 ≤ ⌊s * 255⌋ := Int.floor_nonneg.mpr hnn
  have hf : ⌊s * 255⌋ ≤ 255 := by
    calc ⌊s * 255⌋ ≤ ⌊(255:ℚ)⌋ := Int.floor_le_floor hub
      _ = 255 := by norm_num
  have htn : Int.toNat ⌊s * 255⌋ ≤ 255 := by omega
  unfold heightByte astypeU8
  exact ⟨Nat.mod_eq_of_lt (by omega), by omega⟩

/-- Witness for C9's amended statement at S = 1/2. -/
theorem c9_witness :
    heightByte (1/2) = Int.toNat ⌊(1:ℚ)/2 * 255⌋ ∧ heightByte (1/2) ≤ 255 :=
  c9_height_truncates (1/2) halfNonneg halfLeOne

/-- Counterexample to C9 as stated: at the structure value 1/2 the code
stores `int(127.5) = 127`, while rounding to the nearest integer (any
tie convention) gives 128. -/
theorem c9_counterexample :
    heightByte (1/2) = 127 ∧ round ((1:ℚ)/2 * 255) = 128 := by
  constructor
  · norm_num [heightByte, astypeU8]
    decide
  · rw [round_eq]; norm_num

-- ## Claim C10

/-- C10 (confirmed): the blue channel of every normal-map pixel is at
least 127.  The pre-normalization z component is fixed at 1, so
`z = 1/d` with `d = sqrt(gx^2 + gy^2 + 1) >= 1`, hence `0 < z <= 1` and
the remapped byte `int((z + 1) * 0.5 * 255)` lies in [127, 255] —
never wrapping, never pointing away from the viewer. -/
theorem c10_blue_at_least_127 (gx gy : ℚ) (d : ℝ)
    (hd2 : d ^ 2 = ((normalDenomSq gx gy : ℚ) : ℝ)) (hd0 : 0 < d) :
    127 ≤ ⌊((1:ℝ) / d + 1) * (1/2) * 255⌋ ∧
    ⌊((1:ℝ) / d + 1) * (1/2) * 255⌋ ≤ 255 := by
  have hd2' : d ^ 2 = ((gx:ℚ):ℝ) ^ 2 + ((gy:ℚ):ℝ) ^ 2 + 1 := by
    rw [hd2]
    push_cast [normalDenomSq]
    ring
  have h1d : 1 ≤ d := by
    nlinarith [sq_nonneg ((gx:ℚ):ℝ), sq_nonneg ((gy:ℚ):ℝ), sq_nonneg (d - 1),
      sq_nonneg (d + 1)]
  have hz0 : 0 < (1:ℝ) / d := by positivity
  have hz1 : (1:ℝ) / d ≤ 1 := by
    rw [div_le_one hd0]
    exact h1d
  constructor
  · rw [Int.le_floor]
    push_cast
    nlinarith [hz0]
  · have hub : ((1:ℝ) / d + 1) * (1/2) * 255 ≤ 255 := by nlinarith [hz1]
    calc ⌊((1:ℝ) / d + 1) * (1/2) * 255⌋ ≤ ⌊(255:ℝ)⌋ := Int.floor_le_floor hub
      _ = 255 := by norm_num

/-- Witness for C10 at a flat pixel: both gradients 0, denominator 1,
blue byte 255. -/
theorem c10_witness :
    127 ≤ ⌊((1:ℝ) / 1 + 1) * (1/2) * 255⌋ ∧
    ⌊((1:ℝ) / 1 + 1) * (1/2) * 255⌋ ≤ 255 :=
  c10_blue_at_least_127 0 0 1 normalDenomSqDemo one_pos
